/-
  Verification of the WeMake-AI/raycast-extensions repository against its
  natural-language specification.

  The repository consists of markdown documentation (project rules, setup,
  workflow, CI/CD, monitoring/analytics guides) and a single executable
  configuration file, eslint.config.js.  The markdown guides contain
  TypeScript snippets (PostHogAnalytics, GlobalErrorHandler, ErrorBoundary,
  PerformanceTracker, AlertManager, EnvironmentValidator, asyncResult, ...).
  This file gives a shallow embedding of eslint.config.js, of the repository's
  file inventory, and of the documentation snippets that the claims cite, and
  proves or refutes each claim over that embedding.
-/
import Mathlib

namespace ESLint

/-- A flat-config entry as appears in `eslint.config.js`.  Only the option
keys relevant to this repository's configuration are modelled; each is
`Option` so that an entry can leave a key unset, as JavaScript object
literals do.  The appended workspace entry in the source sets only
`ignores`. -/
structure ESLintEntry where
  ignores : Option (List String) := none
  files : Option (List String) := none
  rules : Option (List (String × String)) := none
  plugins : Option (List String) := none
  languageOptions : Option (List (String × String)) := none
deriving DecidableEq, Repr

/-- The exported configuration object: `defineConfig` from `eslint/config`
wraps the entry array. -/
structure ESLintConfig where
  entries : List ESLintEntry
deriving DecidableEq, Repr

/-- Function `defineConfig` from `eslint/config`, applied to the entry array. -/
def defineConfig (entries : List ESLintEntry) : ESLintConfig :=
  ⟨entries⟩

/-- The ignore globs of the object literal appended in `eslint.config.js`. -/
def workspaceIgnoreGlobs : List String :=
  [".nx/**", "dist/**", "build/**", "node_modules/**", "**/*.bundle.js",
   "**/*.min.js", "**/*.generated.*"]

/-- The single object literal appended after the spread of the preset in
`eslint.config.js`: it sets only the `ignores` key. -/
def workspaceIgnoresEntry : ESLintEntry :=
  { ignores := some workspaceIgnoreGlobs }

/-- The default export of `eslint.config.js`:
`defineConfig([...raycastConfig, { ignores: [...] }])`.  The
`@raycast/eslint-config` preset is an external package, so it is a
parameter. -/
def eslintConfigDefault (raycastConfig : List ESLintEntry) : ESLintConfig :=
  defineConfig (raycastConfig ++ [workspaceIgnoresEntry])

end ESLint

namespace Corpus

/-- The format of a file in the repository. -/
inductive FileFormat where
  | markdown
  | javascript
deriving DecidableEq, Repr

/-- A file of the repository: its path, its format, and whether it contains
fenced TypeScript/TSX code blocks. -/
structure RepoFile where
  path : String
  format : FileFormat
  hasTypeScriptSnippets : Bool
deriving DecidableEq, Repr

/-- The file inventory of the repository.  Two documentation guides
(the development-environment setup guide and the monitoring/analytics
guide) reach us without their original path; they are listed under the
titles of their markdown headers.  `hasTypeScriptSnippets` records whether
the file contains fenced ```typescript blocks. -/
def repoFiles : List RepoFile :=
  [{ path := ".trae/rules/project_rules.md", format := .markdown,
     hasTypeScriptSnippets := true },
   { path := "README.md", format := .markdown,
     hasTypeScriptSnippets := false },
   { path := "docs/01-project-overview.md", format := .markdown,
     hasTypeScriptSnippets := true },
   { path := "docs/03-development-workflow.md", format := .markdown,
     hasTypeScriptSnippets := true },
   { path := "docs/05-cicd-deployment.md", format := .markdown,
     hasTypeScriptSnippets := true },
   { path := "eslint.config.js", format := .javascript,
     hasTypeScriptSnippets := false },
   { path := "(guide: Development Environment Setup)", format := .markdown,
     hasTypeScriptSnippets := false },
   { path := "(guide: Monitoring and Analytics Integration)", format := .markdown,
     hasTypeScriptSnippets := true }]

end Corpus

namespace ErrHandling

/-- Class `AppError` from the coding-standards snippet: message, code, and an HTTP
status code defaulting to 500 (the optional `context` payload is not used by
`asyncResult` and is omitted). -/
structure AppError where
  message : String
  code : String
  statusCode : Int := 500
deriving DecidableEq, Repr

/-- Type `Result<T, AppError>` from the coding-standards snippet:
`{ success: true; data: T } | { success: false; error: E }`. -/
inductive Result (T : Type) where
  | success (data : T)
  | failure (error : AppError)
deriving DecidableEq, Repr

/-- The possible outcomes of awaiting a JavaScript promise, as `asyncResult`
distinguishes them: resolution with a value, rejection with an `AppError`,
rejection with some other `Error` (carrying a message), or rejection with a
non-`Error` value. -/
inductive PromiseOutcome (T : Type) where
  | resolved (value : T)
  | rejectedAppError (e : AppError)
  | rejectedError (message : String)
  | rejectedNonError
deriving DecidableEq, Repr

/-- Function `asyncResult` from the coding-standards snippet: awaits the promise in a
try/catch; on success wraps the value, on rejection returns a failure whose
error is the `AppError` itself when the cause is one, and otherwise a fresh
`AppError` with code "UNKNOWN_ERROR" (message taken from the `Error`, or
"Unknown error" for non-`Error` causes). -/
def asyncResult {T : Type} : PromiseOutcome T → Result T
  | .resolved v => .success v
  | .rejectedAppError e => .failure e
  | .rejectedError msg => .failure { message := msg, code := "UNKNOWN_ERROR" }
  | .rejectedNonError => .failure { message := "Unknown error", code := "UNKNOWN_ERROR" }

/-- Whether a promise outcome is a rejection. -/
def PromiseOutcome.isRejected {T : Type} : PromiseOutcome T → Bool
  | .resolved _ => false
  | _ => true

/-- Whether a `Result` is a failure. -/
def Result.isFailure {T : Type} : Result T → Bool
  | .success _ => false
  | .failure _ => true

end ErrHandling

namespace Analytics

/-- The result of `getPreferenceValues<{ enableAnalytics?: boolean }>()` as
`shouldEnableAnalytics` reads it: `none` models the call throwing (the
catch branch), `some prefs` a preference object whose optional
`enableAnalytics` boolean is `prefs` (`none` when the key is undefined). -/
abbrev PrefRead : Type := Option (Option Bool)

/-- Method `PostHogAnalytics.shouldEnableAnalytics`: returns
`preferences.enableAnalytics === true` (strict equality, so an undefined or
false preference yields false) and false when reading preferences throws. -/
def shouldEnableAnalytics : PrefRead → Bool
  | none => false
  | some prefs => prefs = some true

/-- A call against the PostHog SDK client, as issued by the analytics
service: `client.capture`, `client.identify`, `client.flush`,
`client.shutdown`. -/
inductive PostHogCall where
  | capture (distinctId : String) (event : String)
      (properties : List (String × String))
  | identify (distinctId : String) (properties : List (String × String))
  | flush
  | shutdown
deriving DecidableEq, Repr

/-- The state of a `PostHogAnalytics` instance relevant to event emission:
the `isEnabled` flag computed in the constructor and the generated
user/session identifiers. -/
structure PostHogAnalytics where
  isEnabled : Bool
  userId : String
  sessionId : String
deriving DecidableEq, Repr

/-- Method `PostHogAnalytics.track`: returns immediately when analytics is
disabled; otherwise calls `client.capture` with the properties extended by
the session id, a timestamp and the `$lib` metadata. -/
def track (a : PostHogAnalytics) (event : String)
    (properties : List (String × String)) (nowIso : String) :
    List PostHogCall :=
  if !a.isEnabled then []
  else
    [.capture a.userId event
      (properties ++ [("sessionId", a.sessionId), ("timestamp", nowIso),
        ("$lib", "raycast-extension"), ("$lib_version", "1.0.0")])]

/-- Method `PostHogAnalytics.trackCommand`: delegates to `track` with event
"command_executed". -/
def trackCommand (a : PostHogAnalytics) (commandName : String)
    (metadata : List (String × String)) (nowIso : String) :
    List PostHogCall :=
  track a "command_executed" (("command", commandName) :: metadata) nowIso

/-- Method `PostHogAnalytics.trackBehavior`: delegates to `track` with event
"user_behavior". -/
def trackBehavior (a : PostHogAnalytics) (action : String)
    (context : List (String × String)) (nowIso : String) :
    List PostHogCall :=
  track a "user_behavior" (("action", action) :: context) nowIso

/-- Method `PostHogAnalytics.trackError`: delegates to `track` with event
"error_occurred". -/
def trackError (a : PostHogAnalytics) (errorId errorType message : String)
    (nowIso : String) : List PostHogCall :=
  track a "error_occurred"
    [("errorId", errorId), ("errorType", errorType), ("message", message)]
    nowIso

/-- Method `PostHogAnalytics.trackPerformance`: delegates to `track` with event
"performance_metrics". -/
def trackPerformance (a : PostHogAnalytics)
    (metrics : List (String × String)) (nowIso : String) : List PostHogCall :=
  track a "performance_metrics" metrics nowIso

/-- Method `PostHogAnalytics.trackAI`: delegates to `track` with event
"ai_interaction". -/
def trackAI (a : PostHogAnalytics) (action : String)
    (metadata : List (String × String)) (nowIso : String) :
    List PostHogCall :=
  track a "ai_interaction" (("aiAction", action) :: metadata) nowIso

/-- Method `PostHogAnalytics.trackMCP`: delegates to `track` with event
"mcp_interaction". -/
def trackMCP (a : PostHogAnalytics) (action : String)
    (metadata : List (String × String)) (nowIso : String) :
    List PostHogCall :=
  track a "mcp_interaction" (("mcpAction", action) :: metadata) nowIso

/-- Method `PostHogAnalytics.setUserProperties`: returns immediately when analytics
is disabled; otherwise calls `client.identify`. -/
def setUserProperties (a : PostHogAnalytics)
    (properties : List (String × String)) : List PostHogCall :=
  if !a.isEnabled then []
  else [.identify a.userId properties]

/-- Method `PostHogAnalytics.flush`: returns immediately when analytics is
disabled; otherwise calls `client.flush`. -/
def flushOp (a : PostHogAnalytics) : List PostHogCall :=
  if !a.isEnabled then [] else [.flush]

/-- Method `PostHogAnalytics.shutdown`: returns immediately when analytics is
disabled; otherwise tracks "session_ended", then flushes and shuts the
client down. -/
def shutdownOp (a : PostHogAnalytics) (nowIso : String) : List PostHogCall :=
  if !a.isEnabled then []
  else
    track a "session_ended" [("sessionId", a.sessionId)] nowIso ++
      flushOp a ++ [.shutdown]

/-- The `PostHogAnalytics` constructor: computes `isEnabled` via
`shouldEnableAnalytics`; when enabled it creates the client, generates the
user and session ids (passed here as parameters, since they come from
`randomUUID`/`Date.now`/`Math.random`) and tracks "session_started"; when
disabled nothing is initialised and no call is made.  Returns the instance
together with the PostHog calls issued during construction. -/
def mkPostHogAnalytics (prefs : PrefRead) (userId sessionId nowIso : String) :
    PostHogAnalytics × List PostHogCall :=
  let enabled := shouldEnableAnalytics prefs
  if enabled then
    let a : PostHogAnalytics :=
      { isEnabled := true, userId := userId, sessionId := sessionId }
    (a, track a "session_started"
      [("sessionId", sessionId), ("platform", "raycast")] nowIso)
  else ({ isEnabled := false, userId := "", sessionId := "" }, [])

end Analytics

namespace Perf

/-- The unit of a performance metric: "ms" | "bytes" | "count" |
"percentage". -/
inductive MetricUnit where
  | ms
  | bytes
  | count
  | percentage
deriving DecidableEq, Repr

/-- Interface `PerformanceMetric` from the performance-tracker snippet.  Values are
rationals, standing for JavaScript numbers (the optional `context` payload
does not influence any tracked behaviour and is omitted). -/
structure PerformanceMetric where
  name : String
  value : Rat
  unit : MetricUnit
  timestamp : Int
deriving DecidableEq, Repr

/-- A call the `PerformanceTracker` delegates to the analytics service
(through the optional handle returned by `getAnalytics`). -/
inductive DelegateCall where
  | trackPerformance (name : String) (value : Rat)
  | trackEvent (event : String)
deriving DecidableEq, Repr

/-- The state of the `PerformanceTracker` singleton: the named-timer map,
the in-memory metrics buffer, and the handle of the scheduled
memory-monitoring interval (`some period` when an interval with that period
in milliseconds is scheduled, `none` after `dispose`). -/
structure PerformanceTracker where
  timers : List (String × Rat)
  metrics : List PerformanceMetric
  memoryMonitorInterval : Option Int
deriving DecidableEq, Repr

/-- The `PerformanceTracker` constructor: empty timer map and metrics
buffer, and `setupPerformanceObserver` schedules the memory monitor with
`setInterval(..., 30000)` — every 30 seconds. -/
def initTracker : PerformanceTracker :=
  { timers := [], metrics := [], memoryMonitorInterval := some 30000 }

/-- Method `PerformanceTracker.dispose`: clears the interval (setting the handle
to null), clears the timer map and empties the metrics buffer. -/
def dispose (_st : PerformanceTracker) : PerformanceTracker :=
  { timers := [], metrics := [], memoryMonitorInterval := none }

/-- JavaScript `Map.set` on the timer map: replaces the value in place when the key
exists, otherwise appends the new binding (JavaScript `Map` insertion
order). -/
def timersSet (timers : List (String × Rat)) (name : String) (t : Rat) :
    List (String × Rat) :=
  if timers.any (fun p => p.1 == name) then
    timers.map (fun p => if p.1 == name then (p.1, t) else p)
  else timers ++ [(name, t)]

/-- Method `PerformanceTracker.startTimer`: records `performance.now()` (the
`perfNow` parameter) under the timer's name. -/
def startTimer (st : PerformanceTracker) (name : String) (perfNow : Rat) :
    PerformanceTracker :=
  { st with timers := timersSet st.timers name perfNow }

/-- Method `PerformanceTracker.recordMetric`: pushes the metric, delegates
`trackPerformance` with the metric's name and value to the analytics
handle, and when the buffer exceeds 100 entries keeps only the last 100
(`this.metrics.slice(-100)`).  Returns the new state and the delegated
calls. -/
def recordMetric (st : PerformanceTracker) (m : PerformanceMetric) :
    PerformanceTracker × List DelegateCall :=
  let ms := st.metrics ++ [m]
  let kept := if ms.length > 100 then ms.drop (ms.length - 100) else ms
  ({ st with metrics := kept }, [.trackPerformance m.name m.value])

/-- Method `PerformanceTracker.endTimer`: when the timer was never started, warns
and returns 0 with no state change; otherwise computes the duration from
`performance.now()` (the `perfNow` parameter), deletes the timer and
records an "ms" metric stamped with `Date.now()` (the `dateNow`
parameter).  Returns the duration, the new state and the delegated
calls. -/
def endTimer (st : PerformanceTracker) (name : String)
    (perfNow : Rat) (dateNow : Int) :
    Rat × PerformanceTracker × List DelegateCall :=
  match (st.timers.find? (fun p => p.1 == name)) with
  | none => (0, st, [])
  | some (_, start) =>
      let duration := perfNow - start
      let st1 := { st with timers := st.timers.filter (fun p => p.1 != name) }
      let (st2, calls) := recordMetric st1
        { name := name, value := duration, unit := .ms, timestamp := dateNow }
      (duration, st2, calls)

/-- The statistics `getPerformanceSummary` computes for each metric name:
count, average, minimum, maximum and latest value. -/
structure MetricStats where
  count : Nat
  avg : Rat
  min : Rat
  max : Rat
  latest : Rat
deriving DecidableEq, Repr

/-- The grouping step of `getPerformanceSummary`: the `reduce` that builds
an object mapping each metric name to the list of its values, keys in
first-seen order (JavaScript object insertion order). -/
def groupMetrics (ms : List PerformanceMetric) : List (String × List Rat) :=
  ms.foldl
    (fun acc m =>
      if acc.any (fun p => p.1 == m.name) then
        acc.map (fun p => if p.1 == m.name then (p.1, p.2 ++ [m.value]) else p)
      else acc ++ [(m.name, [m.value])])
    []

/-- The per-group statistics of `getPerformanceSummary`: count is the number
of values, avg their sum divided by the count, min/max via
`Math.min`/`Math.max`, latest the last value.  (Groups produced by
`groupMetrics` are never empty; on an empty list the fallbacks are 0.) -/
def statsOf (values : List Rat) : MetricStats :=
  { count := values.length,
    avg := values.foldl (· + ·) 0 / values.length,
    min := match values with
      | [] => 0
      | v :: vs => vs.foldl (fun a b => if b < a then b else a) v,
    max := match values with
      | [] => 0
      | v :: vs => vs.foldl (fun a b => if a < b then b else a) v,
    latest := values.getLastD 0 }

/-- Method `PerformanceTracker.getPerformanceSummary`: groups the buffered metrics
by name and computes count/avg/min/max/latest for each group, issuing no
call to the analytics handle or any SDK (the returned delegate-call list
is empty because the method's body contains none). -/
def getPerformanceSummary (st : PerformanceTracker) :
    List (String × MetricStats) × List DelegateCall :=
  ((groupMetrics st.metrics).map (fun p => (p.1, statsOf p.2)), [])

/-- The tracker operations a client can interleave. -/
inductive PerfOp where
  | record (m : PerformanceMetric)
  | startTimerOp (name : String) (perfNow : Rat)
  | endTimerOp (name : String) (perfNow : Rat) (dateNow : Int)
  | disposeOp
deriving Repr

/-- Run one tracker operation, discarding returned values and delegated
calls (which do not affect the tracker state). -/
def stepPerf (st : PerformanceTracker) : PerfOp → PerformanceTracker
  | .record m => (recordMetric st m).1
  | .startTimerOp name perfNow => startTimer st name perfNow
  | .endTimerOp name perfNow dateNow => (endTimer st name perfNow dateNow).2.1
  | .disposeOp => dispose st

/-- Run a sequence of tracker operations from a state. -/
def runPerf (st : PerformanceTracker) : List PerfOp → PerformanceTracker
  | [] => st
  | op :: ops => runPerf (stepPerf st op) ops

end Perf

namespace Alerts

/-- A metrics record (`Record<string, number>`), values as rationals. -/
abbrev Metrics : Type := List (String × Rat)

/-- Field access with JavaScript `|| 0` semantics, as the default alert
conditions read metrics (`metrics.errorRate || 0`): a missing field reads
as 0. -/
def getMetric (metrics : Metrics) (name : String) : Rat :=
  match metrics.find? (fun p => p.1 == name) with
  | none => 0
  | some p => p.2

/-- An `AlertRule`: name, boolean condition over the metrics record,
severity, cooldown in minutes, and notification channels. -/
structure AlertRule where
  name : String
  condition : Metrics → Bool
  severity : String
  cooldown : Nat
  channels : List String

/-- The first rule installed by `AlertManager.setupDefaultRules`: error
rate above 5%, severity high, 15-minute cooldown. -/
def highErrorRateRule : AlertRule :=
  { name := "high_error_rate",
    condition := fun m => getMetric m "errorRate" > 0.05,
    severity := "high", cooldown := 15, channels := ["slack", "email"] }

/-- The rules installed by `AlertManager.setupDefaultRules`. -/
def defaultRules : List AlertRule :=
  [highErrorRateRule,
   { name := "slow_response_time",
     condition := fun m => getMetric m "avgResponseTime" > 5000,
     severity := "medium", cooldown := 30, channels := ["slack"] },
   { name := "memory_leak",
     condition := fun m => getMetric m "memoryUsage" > 500 * 1024 * 1024,
     severity := "high", cooldown := 10, channels := ["slack", "email"] },
   { name := "ai_failure_rate",
     condition := fun m => getMetric m "aiErrorRate" > 0.1,
     severity := "medium", cooldown := 20, channels := ["slack"] }]

/-- The `lastAlerts` map of the `AlertManager`: rule name to the timestamp
(milliseconds) of its most recent alert. -/
abbrev LastAlerts : Type := List (String × Int)

/-- Lookup in the `lastAlerts` map. -/
def lastLookup (last : LastAlerts) (name : String) : Option Int :=
  match last.find? (fun p => p.1 == name) with
  | none => none
  | some p => some p.2

/-- JavaScript `Map.set` on the `lastAlerts` map: replace the binding in place when
the key is present (JavaScript `Map` keys are unique and keep their
insertion position), otherwise append the new binding. -/
def lastSet : LastAlerts → String → Int → LastAlerts
  | [], name, t => [(name, t)]
  | p :: ps, name, t =>
      if p.1 == name then (p.1, t) :: ps else p :: lastSet ps name t

/-- Method `AlertManager.shouldSkipAlert`: skip when a previous alert for the rule
exists and less than `cooldown * 60 * 1000` milliseconds have passed since
it (`Date.now()` is the `now` parameter). -/
def shouldSkipAlert (last : LastAlerts) (name : String) (cooldown : Nat)
    (now : Int) : Bool :=
  match lastLookup last name with
  | none => false
  | some t => now - t < (cooldown : Int) * 60 * 1000

/-- The loop body of `AlertManager.checkAlerts` over the rule list: for each
rule, skip it while in cooldown; otherwise, when its condition holds on the
metrics, trigger an alert (logged here as the pair of rule name and
timestamp) and set `lastAlerts[rule.name]` to now.  Returns the updated
`lastAlerts` map and the alerts triggered, in rule order. -/
def checkAlertsGo (now : Int) (metrics : Metrics) :
    List AlertRule → LastAlerts → LastAlerts × List (String × Int)
  | [], last => (last, [])
  | r :: rs, last =>
      if shouldSkipAlert last r.name r.cooldown now then
        checkAlertsGo now metrics rs last
      else if r.condition metrics then
        ((checkAlertsGo now metrics rs (lastSet last r.name now)).1,
         (r.name, now) :: (checkAlertsGo now metrics rs (lastSet last r.name now)).2)
      else
        checkAlertsGo now metrics rs last

/-- Method `AlertManager.checkAlerts` on a manager whose rules are `rules` and
whose `lastAlerts` map is `last`, called at time `now` with the given
metrics. -/
def checkAlerts (rules : List AlertRule) (now : Int) (metrics : Metrics)
    (last : LastAlerts) : LastAlerts × List (String × Int) :=
  checkAlertsGo now metrics rules last

/-- A run of `checkAlerts` calls: each trace element is the call time
(`Date.now()` at that call) and the metrics passed.  Returns the final
`lastAlerts` map and the concatenated alert log. -/
def runAlerts (rules : List AlertRule) :
    List (Int × Metrics) → LastAlerts → LastAlerts × List (String × Int)
  | [], last => (last, [])
  | (t, m) :: rest, last =>
      let r1 := checkAlerts rules t m last
      let r2 := runAlerts rules rest r1.1
      (r2.1, r1.2 ++ r2.2)

/-- The times, in order, at which the alert log records an alert for the
given rule name. -/
def alertTimesFor (name : String) (log : List (String × Int)) : List Int :=
  (log.filter (fun e => e.1 == name)).map (fun e => e.2)

end Alerts

namespace EnvConfig

/-- The `NODE_ENV` values accepted by `envSchema`. -/
inductive NodeEnv where
  | development
  | staging
  | production
deriving DecidableEq, Repr

/-- The `LOG_LEVEL` values accepted by `envSchema`. -/
inductive LogLevel where
  | debug
  | info
  | warn
  | error
deriving DecidableEq, Repr

/-- The parsed environment, `z.infer<typeof envSchema>`. -/
structure Environment where
  nodeEnv : NodeEnv
  openaiApiKey : Option String
  anthropicApiKey : Option String
  posthogApiKey : Option String
  logLevel : LogLevel
  enableAnalytics : Bool
  encryptionKey : Option String
  jwtSecret : Option String
deriving DecidableEq, Repr

/-- A process environment: variable name to string value (absent variables
are simply not in the list). -/
abbrev Env : Type := List (String × String)

/-- Lookup of a process-environment variable. -/
def envLookup (env : Env) (name : String) : Option String :=
  match env.find? (fun p => p.1 == name) with
  | none => none
  | some p => some p.2

/-- The `NODE_ENV` field of `envSchema`:
`z.enum(["development", "staging", "production"])`, required.  Zod error
details are abstracted to a message string. -/
def parseNodeEnv : Option String → Except String NodeEnv
  | none => .error "NODE_ENV: required"
  | some "development" => .ok .development
  | some "staging" => .ok .staging
  | some "production" => .ok .production
  | some _ => .error "NODE_ENV: invalid enum value"

/-- An optional key with a minimum length, `z.string().min(n).optional()`:
absent is fine; a present value must have length at least `n`. -/
def parseOptionalMin (name : String) (n : Nat) :
    Option String → Except String (Option String)
  | none => .ok none
  | some s =>
      if n ≤ s.length then .ok (some s)
      else .error (name ++ ": string too short")

/-- The `LOG_LEVEL` field:
`z.enum(["debug", "info", "warn", "error"]).default("info")`. -/
def parseLogLevel : Option String → Except String LogLevel
  | none => .ok .info
  | some "debug" => .ok .debug
  | some "info" => .ok .info
  | some "warn" => .ok .warn
  | some "error" => .ok .error
  | some _ => .error "LOG_LEVEL: invalid enum value"

/-- The `ENABLE_ANALYTICS` field:
`z.string().transform((val) => val === "true").default("true")` — an absent
variable defaults to the string "true" before the transform, so the field
parses to `true` exactly when the variable is absent or equal to
"true". -/
def parseEnableAnalytics : Option String → Bool
  | none => true
  | some s => s == "true"

/-- The call `envSchema.parse(process.env)`: validates every field of the schema and
assembles the parsed `Environment`. -/
def envSchemaParse (env : Env) : Except String Environment := do
  let nodeEnv ← parseNodeEnv (envLookup env "NODE_ENV")
  let openai ← parseOptionalMin "OPENAI_API_KEY" 1 (envLookup env "OPENAI_API_KEY")
  let anthropic ← parseOptionalMin "ANTHROPIC_API_KEY" 1 (envLookup env "ANTHROPIC_API_KEY")
  let posthog ← parseOptionalMin "POSTHOG_API_KEY" 1 (envLookup env "POSTHOG_API_KEY")
  let logLevel ← parseLogLevel (envLookup env "LOG_LEVEL")
  let encryption ← parseOptionalMin "ENCRYPTION_KEY" 32 (envLookup env "ENCRYPTION_KEY")
  let jwt ← parseOptionalMin "JWT_SECRET" 32 (envLookup env "JWT_SECRET")
  .ok { nodeEnv := nodeEnv, openaiApiKey := openai,
        anthropicApiKey := anthropic, posthogApiKey := posthog,
        logLevel := logLevel,
        enableAnalytics := parseEnableAnalytics (envLookup env "ENABLE_ANALYTICS"),
        encryptionKey := encryption, jwtSecret := jwt }

/-- The `requiredInProduction` list of
`EnvironmentValidator.validateProductionRequirements`. -/
def requiredInProduction : List String :=
  ["OPENAI_API_KEY", "POSTHOG_API_KEY", "ENCRYPTION_KEY"]

/-- Whether `!process.env[key]` holds: the variable is absent or its value
is the empty string (falsy). -/
def envMissing (env : Env) (key : String) : Bool :=
  match envLookup env key with
  | none => true
  | some s => s == ""

/-- Method `EnvironmentValidator.validateEnvironment`: parses `process.env` with
`envSchema`; in production additionally requires `OPENAI_API_KEY`,
`POSTHOG_API_KEY` and `ENCRYPTION_KEY` to be set and non-empty.  A zod
failure or a missing production requirement lands in the catch branch,
which logs and calls `process.exit(1)` — modelled as an error result. -/
def validateEnvironment (env : Env) : Except String Environment := do
  let e ← envSchemaParse env
  if e.nodeEnv = .production then
    if (requiredInProduction.filter (fun k => envMissing env k)).length > 0 then
      .error "Missing required environment variables in production"
    else .ok e
  else .ok e

end EnvConfig

/-- A sample metric used to instantiate witnesses. -/
def Perf.sampleMetric : Perf.PerformanceMetric :=
  { name := "sample", value := 1, unit := .ms, timestamp := 0 }

/-- A tracker whose metrics buffer is exactly full. -/
def Perf.fullTracker : Perf.PerformanceTracker :=
  { timers := [], metrics := List.replicate 100 Perf.sampleMetric,
    memoryMonitorInterval := some 30000 }

/-- The gap constraint between consecutive alert times of one rule,
seeded with the rule's `lastAlerts` entry at the start of the run (if any):
every consecutive pair of trigger times is at least `c` milliseconds
apart. -/
def Alerts.seedChain (c : Int) : Option Int → List Int → Prop
  | none, ts => List.Chain' (fun a b => c ≤ b - a) ts
  | some t0, ts => List.Chain' (fun a b => c ≤ b - a) (t0 :: ts)

/-- The last element of a time list, falling back to a prior optional
time — the value the `lastAlerts` map holds for a rule after a run that
triggered it at the listed times. -/
def Alerts.lastTimeOr (ts : List Int) (o : Option Int) : Option Int :=
  match ts.getLast? with
  | some t => some t
  | none => o

/-- C1: the exported ESLint configuration is `defineConfig` applied to an
array that is exactly the entries of the `@raycast/eslint-config` preset in
their original order, followed by exactly one additional object whose
`ignores` field is exactly the listed globs. -/
theorem ESLint.c1_default_export_structure (preset : List ESLint.ESLintEntry) :
    ESLint.eslintConfigDefault preset =
      ESLint.defineConfig (preset ++ [ESLint.workspaceIgnoresEntry]) ∧
    (ESLint.eslintConfigDefault preset).entries.length = preset.length + 1 ∧
    (ESLint.eslintConfigDefault preset).entries.take preset.length = preset ∧
    (ESLint.eslintConfigDefault preset).entries.getLast? =
      some { ignores := some [".nx/**", "dist/**", "build/**",
        "node_modules/**", "**/*.bundle.js", "**/*.min.js",
        "**/*.generated.*"] } := by
  refine ⟨rfl, ?_, ?_, ?_⟩
  · simp [ESLint.eslintConfigDefault, ESLint.defineConfig]
  · simp [ESLint.eslintConfigDefault, ESLint.defineConfig, List.take_left]
  · simp [ESLint.eslintConfigDefault, ESLint.defineConfig,
      ESLint.workspaceIgnoresEntry, ESLint.workspaceIgnoreGlobs]

/-- C2: composing the workspace configuration leaves the preset unchanged —
every preset entry appears as-is (the prefix of the exported entry array is
exactly the preset), and the one appended object sets only the `ignores`
key, leaving every other option unset. -/
theorem ESLint.c2_preset_unchanged (preset : List ESLint.ESLintEntry)
    (e : ESLint.ESLintEntry) (he : e ∈ preset) :
    e ∈ (ESLint.eslintConfigDefault preset).entries ∧
    (ESLint.eslintConfigDefault preset).entries.take preset.length = preset ∧
    ESLint.workspaceIgnoresEntry.ignores = some ESLint.workspaceIgnoreGlobs ∧
    ESLint.workspaceIgnoresEntry.files = none ∧
    ESLint.workspaceIgnoresEntry.rules = none ∧
    ESLint.workspaceIgnoresEntry.plugins = none ∧
    ESLint.workspaceIgnoresEntry.languageOptions = none := by
  refine ⟨?_, ?_, rfl, rfl, rfl, rfl, rfl⟩
  · simp [ESLint.eslintConfigDefault, ESLint.defineConfig]
    exact Or.inl he
  · simp [ESLint.eslintConfigDefault, ESLint.defineConfig, List.take_left]

/-- Witness for C2, instantiated with a one-entry preset. -/
theorem ESLint.c2_preset_unchanged_witness :
    ESLint.workspaceIgnoresEntry ∈
      (ESLint.eslintConfigDefault [ESLint.workspaceIgnoresEntry]).entries ∧
    (ESLint.eslintConfigDefault [ESLint.workspaceIgnoresEntry]).entries.take 1 =
      [ESLint.workspaceIgnoresEntry] ∧
    ESLint.workspaceIgnoresEntry.ignores = some ESLint.workspaceIgnoreGlobs ∧
    ESLint.workspaceIgnoresEntry.files = none ∧
    ESLint.workspaceIgnoresEntry.rules = none ∧
    ESLint.workspaceIgnoresEntry.plugins = none ∧
    ESLint.workspaceIgnoresEntry.languageOptions = none :=
  ESLint.c2_preset_unchanged [ESLint.workspaceIgnoresEntry]
    ESLint.workspaceIgnoresEntry (List.mem_singleton.mpr rfl)

/-- C3 counterexample: the corpus does contain a function that catches and
classifies errors.  `asyncResult`, from the coding-standards snippet of the
monitoring guide, catches the rejection of a promise (here one rejected
with an `Error` whose message is "network timeout") and classifies it as an
`AppError` with code "UNKNOWN_ERROR" instead of propagating it — so the
universally-quantified claim "no function in the corpus catches,
classifies, or reports an error" is false at this input. -/
theorem ErrHandling.c3_counterexample :
    ErrHandling.asyncResult
        (ErrHandling.PromiseOutcome.rejectedError (T := Nat) "network timeout") =
      ErrHandling.Result.failure
        { message := "network timeout", code := "UNKNOWN_ERROR",
          statusCode := 500 } ∧
    (ErrHandling.asyncResult
        (ErrHandling.PromiseOutcome.rejectedError (T := Nat) "network timeout")).isFailure
      = true :=
  ⟨rfl, rfl⟩

/-- C3 amended: the repository's executable artifact (`eslint.config.js`)
contains no error handling, and the error-handling idioms exist only inside
markdown documentation; but those documentation snippets do define
error-handling functions — in particular `asyncResult` catches every
promise rejection and converts it into a failure `Result` carrying an
`AppError` (passing an `AppError` cause through and classifying every
other cause under code "UNKNOWN_ERROR"), rather than propagating the
error. -/
theorem ErrHandling.c3_amended_async_result_catches {T : Type}
    (o : ErrHandling.PromiseOutcome T) :
    (o.isRejected = false →
      ∃ v, o = .resolved v ∧ ErrHandling.asyncResult o = .success v) ∧
    (o.isRejected = true →
      ∃ e, ErrHandling.asyncResult o = ErrHandling.Result.failure e ∧
        (e.code = "UNKNOWN_ERROR" ∨ o = .rejectedAppError e)) := by
  cases o <;>
    simp [ErrHandling.asyncResult, ErrHandling.PromiseOutcome.isRejected]

/-- Witness for the amended C3, at the concrete outcome of a promise
rejected with a non-`Error` value. -/
theorem ErrHandling.c3_amended_witness :
    ∃ e, ErrHandling.asyncResult
          (ErrHandling.PromiseOutcome.rejectedNonError (T := Nat)) =
        ErrHandling.Result.failure e ∧
      (e.code = "UNKNOWN_ERROR" ∨
        ErrHandling.PromiseOutcome.rejectedNonError (T := Nat) =
          .rejectedAppError e) :=
  (ErrHandling.c3_amended_async_result_catches
    (ErrHandling.PromiseOutcome.rejectedNonError (T := Nat))).2 rfl

/-- C4: every file of the repository that contains TypeScript/React code
contains it only as snippets inside a markdown document, and the only
non-markdown file of the repository is the `eslint.config.js`
configuration — there is no source tree of extensions, no shared library,
no executable business logic. -/
theorem Corpus.c4_typescript_only_in_markdown (f : Corpus.RepoFile)
    (hf : f ∈ Corpus.repoFiles) :
    (f.hasTypeScriptSnippets = true → f.format = Corpus.FileFormat.markdown) ∧
    (f.format ≠ Corpus.FileFormat.markdown → f.path = "eslint.config.js") := by
  fin_cases hf <;> simp

/-- Witness for C4, at the monorepo's one JavaScript file. -/
theorem Corpus.c4_typescript_only_in_markdown_witness :
    ((({ path := "eslint.config.js", format := .javascript,
          hasTypeScriptSnippets := false } : Corpus.RepoFile).hasTypeScriptSnippets
        = true →
      ({ path := "eslint.config.js", format := .javascript,
          hasTypeScriptSnippets := false } : Corpus.RepoFile).format =
        Corpus.FileFormat.markdown) ∧
     (({ path := "eslint.config.js", format := .javascript,
          hasTypeScriptSnippets := false } : Corpus.RepoFile).format ≠
        Corpus.FileFormat.markdown →
      ({ path := "eslint.config.js", format := .javascript,
          hasTypeScriptSnippets := false } : Corpus.RepoFile).path =
        "eslint.config.js")) :=
  Corpus.c4_typescript_only_in_markdown
    { path := "eslint.config.js", format := .javascript,
      hasTypeScriptSnippets := false } (by decide)

/-- C5: whenever the `enableAnalytics` preference is not exactly `true`
(undefined, `false`, or the preference read throwing),
`shouldEnableAnalytics` returns false, the constructor makes no PostHog
call, and every public operation of the constructed instance — track,
trackCommand, trackBehavior, trackError, trackPerformance, trackAI,
trackMCP, setUserProperties, flush, shutdown — issues no capture, identify,
flush or shutdown call: nothing is ever emitted without explicit
opt-in. -/
theorem Analytics.c5_no_emission_without_opt_in (prefs : Analytics.PrefRead)
    (h : prefs ≠ some (some true))
    (userId sessionId nowIso event commandName action errorId errorType
      message : String) (props : List (String × String)) :
    Analytics.shouldEnableAnalytics prefs = false ∧
    (Analytics.mkPostHogAnalytics prefs userId sessionId nowIso).2 = [] ∧
    Analytics.track
      (Analytics.mkPostHogAnalytics prefs userId sessionId nowIso).1
      event props nowIso = [] ∧
    Analytics.trackCommand
      (Analytics.mkPostHogAnalytics prefs userId sessionId nowIso).1
      commandName props nowIso = [] ∧
    Analytics.trackBehavior
      (Analytics.mkPostHogAnalytics prefs userId sessionId nowIso).1
      action props nowIso = [] ∧
    Analytics.trackError
      (Analytics.mkPostHogAnalytics prefs userId sessionId nowIso).1
      errorId errorType message nowIso = [] ∧
    Analytics.trackPerformance
      (Analytics.mkPostHogAnalytics prefs userId sessionId nowIso).1
      props nowIso = [] ∧
    Analytics.trackAI
      (Analytics.mkPostHogAnalytics prefs userId sessionId nowIso).1
      action props nowIso = [] ∧
    Analytics.trackMCP
      (Analytics.mkPostHogAnalytics prefs userId sessionId nowIso).1
      action props nowIso = [] ∧
    Analytics.setUserProperties
      (Analytics.mkPostHogAnalytics prefs userId sessionId nowIso).1
      props = [] ∧
    Analytics.flushOp
      (Analytics.mkPostHogAnalytics prefs userId sessionId nowIso).1 = [] ∧
    Analytics.shutdownOp
      (Analytics.mkPostHogAnalytics prefs userId sessionId nowIso).1
      nowIso = [] := by
  have hs : Analytics.shouldEnableAnalytics prefs = false := by
    cases prefs with
    | none => rfl
    | some p =>
        simp only [Analytics.shouldEnableAnalytics, decide_eq_false_iff_not]
        exact fun hp => h (by rw [hp])
  have hmk : Analytics.mkPostHogAnalytics prefs userId sessionId nowIso =
      ({ isEnabled := false, userId := "", sessionId := "" }, []) := by
    simp [Analytics.mkPostHogAnalytics, hs]
  refine ⟨hs, ?_, ?_, ?_, ?_, ?_, ?_, ?_, ?_, ?_, ?_, ?_⟩ <;>
    simp [hmk, Analytics.track, Analytics.trackCommand,
      Analytics.trackBehavior, Analytics.trackError,
      Analytics.trackPerformance, Analytics.trackAI, Analytics.trackMCP,
      Analytics.setUserProperties, Analytics.flushOp, Analytics.shutdownOp]

/-- Witness for C5: the preference object present with `enableAnalytics`
set to `false`. -/
theorem Analytics.c5_no_emission_witness :
    Analytics.shouldEnableAnalytics (some (some false)) = false ∧
    (Analytics.mkPostHogAnalytics (some (some false)) "u" "s" "t").2 = [] ∧
    Analytics.track
      (Analytics.mkPostHogAnalytics (some (some false)) "u" "s" "t").1
      "ev" [] "t" = [] ∧
    Analytics.trackCommand
      (Analytics.mkPostHogAnalytics (some (some false)) "u" "s" "t").1
      "cmd" [] "t" = [] ∧
    Analytics.trackBehavior
      (Analytics.mkPostHogAnalytics (some (some false)) "u" "s" "t").1
      "act" [] "t" = [] ∧
    Analytics.trackError
      (Analytics.mkPostHogAnalytics (some (some false)) "u" "s" "t").1
      "eid" "runtime" "msg" "t" = [] ∧
    Analytics.trackPerformance
      (Analytics.mkPostHogAnalytics (some (some false)) "u" "s" "t").1
      [] "t" = [] ∧
    Analytics.trackAI
      (Analytics.mkPostHogAnalytics (some (some false)) "u" "s" "t").1
      "act" [] "t" = [] ∧
    Analytics.trackMCP
      (Analytics.mkPostHogAnalytics (some (some false)) "u" "s" "t").1
      "act" [] "t" = [] ∧
    Analytics.setUserProperties
      (Analytics.mkPostHogAnalytics (some (some false)) "u" "s" "t").1
      [] = [] ∧
    Analytics.flushOp
      (Analytics.mkPostHogAnalytics (some (some false)) "u" "s" "t").1 = [] ∧
    Analytics.shutdownOp
      (Analytics.mkPostHogAnalytics (some (some false)) "u" "s" "t").1
      "t" = [] :=
  Analytics.c5_no_emission_without_opt_in (some (some false)) (by decide)
    "u" "s" "t" "ev" "cmd" "act" "eid" "runtime" "msg" []

/-- C8 counterexample: a component of the corpus does set up periodic
execution of its own — the `PerformanceTracker` constructor
(`setupPerformanceObserver`) schedules `trackMemoryUsage` with
`setInterval(..., 30000)`, i.e. the freshly constructed tracker holds a
scheduled 30000 ms interval, contradicting "no component sets up periodic
or deferred execution of its own". -/
theorem Perf.c8_counterexample :
    Perf.initTracker.memoryMonitorInterval = some 30000 :=
  rfl

/-- C8 amended: no scheduling model or shared-resource discipline is
implemented by the repository's executable configuration, but the
documentation's `PerformanceTracker` snippet does set up periodic execution
of its own: its constructor schedules a 30000 ms memory-monitoring
interval, which only `dispose` clears — recording metrics, starting timers
and ending timers leave the schedule untouched. -/
theorem Perf.c8_amended (st : Perf.PerformanceTracker)
    (m : Perf.PerformanceMetric) (name : String) (perfNow : Rat)
    (dateNow : Int) :
    Perf.initTracker.memoryMonitorInterval = some 30000 ∧
    (Perf.dispose st).memoryMonitorInterval = none ∧
    ((Perf.recordMetric st m).1).memoryMonitorInterval =
      st.memoryMonitorInterval ∧
    (Perf.startTimer st name perfNow).memoryMonitorInterval =
      st.memoryMonitorInterval ∧
    ((Perf.endTimer st name perfNow dateNow).2.1).memoryMonitorInterval =
      st.memoryMonitorInterval := by
  refine ⟨rfl, rfl, rfl, rfl, ?_⟩
  unfold Perf.endTimer
  cases st.timers.find? (fun p => p.1 == name) with
  | none => rfl
  | some p => rfl

/-- Helper for C9: one `recordMetric` call keeps the buffer within the
100-entry bound. -/
theorem Perf.recordMetric_metrics_length_le (st : Perf.PerformanceTracker)
    (m : Perf.PerformanceMetric) (h : st.metrics.length ≤ 100) :
    ((Perf.recordMetric st m).1).metrics.length ≤ 100 := by
  unfold Perf.recordMetric
  dsimp only
  split
  · simp only [List.length_drop]
    omega
  · next hle =>
      simp only [List.length_append, List.length_cons, List.length_nil] at hle ⊢
      omega

/-- Helper for C9: running any operation sequence from a state within the
bound stays within the bound. -/
theorem Perf.runPerf_metrics_le (ops : List Perf.PerfOp) :
    ∀ st : Perf.PerformanceTracker, st.metrics.length ≤ 100 →
      (Perf.runPerf st ops).metrics.length ≤ 100 := by
  induction ops with
  | nil => intro st h; exact h
  | cons op ops ih =>
      intro st h
      refine ih _ ?_
      cases op with
      | record m => exact Perf.recordMetric_metrics_length_le st m h
      | startTimerOp name perfNow =>
          simpa [Perf.stepPerf, Perf.startTimer] using h
      | endTimerOp name perfNow dateNow =>
          show ((Perf.endTimer st name perfNow dateNow).2.1).metrics.length ≤ 100
          unfold Perf.endTimer
          cases hf : st.timers.find? (fun p => p.1 == name) with
          | none => simpa using h
          | some p =>
              exact Perf.recordMetric_metrics_length_le _ _ (by simpa using h)
      | disposeOp => simp [Perf.stepPerf, Perf.dispose]

/-- C9: the in-memory metrics buffer is bounded — starting from the freshly
constructed tracker, after any sequence of recordMetric / startTimer /
endTimer / dispose calls the buffer holds at most 100 entries, and once the
bound is reached `recordMetric` retains exactly the 100 most recently
recorded metrics in order (the oldest entry is dropped, the new one
appended). -/
theorem Perf.c9_bounded_metrics_buffer (ops : List Perf.PerfOp)
    (st : Perf.PerformanceTracker) (m : Perf.PerformanceMetric)
    (h : st.metrics.length = 100) :
    (Perf.runPerf Perf.initTracker ops).metrics.length ≤ 100 ∧
    ((Perf.recordMetric st m).1).metrics = st.metrics.drop 1 ++ [m] ∧
    ((Perf.recordMetric st m).1).metrics.length = 100 := by
  have h2 : ((Perf.recordMetric st m).1).metrics =
      st.metrics.drop 1 ++ [m] := by
    unfold Perf.recordMetric
    dsimp only
    have hgt : (st.metrics ++ [m]).length > 100 := by
      simp [h]
    rw [if_pos hgt]
    have h1 : (st.metrics ++ [m]).length - 100 = 1 := by
      simp [h]
    rw [h1]
    exact List.drop_append_of_le_length (by omega)
  refine ⟨Perf.runPerf_metrics_le ops Perf.initTracker
    (by simp [Perf.initTracker]), h2, ?_⟩
  rw [h2]
  simp [h]

/-- Witness for C9: one `recordMetric` call from the fresh tracker, and a
`recordMetric` call on an exactly-full buffer. -/
theorem Perf.c9_bounded_metrics_buffer_witness :
    (Perf.runPerf Perf.initTracker
      [Perf.PerfOp.record Perf.sampleMetric]).metrics.length ≤ 100 ∧
    ((Perf.recordMetric Perf.fullTracker Perf.sampleMetric).1).metrics =
      Perf.fullTracker.metrics.drop 1 ++ [Perf.sampleMetric] ∧
    ((Perf.recordMetric Perf.fullTracker Perf.sampleMetric).1).metrics.length
      = 100 :=
  Perf.c9_bounded_metrics_buffer [Perf.PerfOp.record Perf.sampleMetric]
    Perf.fullTracker Perf.sampleMetric (by simp [Perf.fullTracker])

/-- Helper: the summary the tracker computes on a buffer holding two "op"
metrics with values 2 and 4. -/
theorem Perf.summary_op_example :
    (Perf.getPerformanceSummary
        { timers := [],
          metrics := [{ name := "op", value := 2, unit := .ms, timestamp := 0 },
                      { name := "op", value := 4, unit := .ms, timestamp := 1 }],
          memoryMonitorInterval := some 30000 }).1 =
      [("op", { count := 2, avg := 3, min := 2, max := 4, latest := 4 })] := by
  simp [Perf.getPerformanceSummary, Perf.groupMetrics, Perf.statsOf,
    List.getLastD]
  norm_num

/-- C6 counterexample: not every documented component delegates all actual
work to the Raycast API or PostHog SDK.
`PerformanceTracker.getPerformanceSummary` computes grouping and
count/avg/min/max/latest statistics over its in-memory buffer entirely by
itself: on a buffer holding two "op" metrics with values 2 and 4 it
produces the average 3 — a value appearing in no input and produced by no
SDK — while issuing the empty list of delegated calls. -/
theorem Perf.c6_counterexample :
    (Perf.getPerformanceSummary
        { timers := [],
          metrics := [{ name := "op", value := 2, unit := .ms, timestamp := 0 },
                      { name := "op", value := 4, unit := .ms, timestamp := 1 }],
          memoryMonitorInterval := some 30000 }).1 =
      [("op", { count := 2, avg := 3, min := 2, max := 4, latest := 4 })] ∧
    (Perf.getPerformanceSummary
        { timers := [],
          metrics := [{ name := "op", value := 2, unit := .ms, timestamp := 0 },
                      { name := "op", value := 4, unit := .ms, timestamp := 1 }],
          memoryMonitorInterval := some 30000 }).2 = [] :=
  ⟨Perf.summary_op_example, rfl⟩

/-- C6 amended: the documented analytics-service pattern is a thin wrapper —
each `track` call either performs nothing or delegates a single
`client.capture` call to the PostHog SDK — but the performance tracker is
not: `getPerformanceSummary` performs independent computation of its own,
aggregating count/avg/min/max/latest statistics over the buffered metrics
while delegating no call at all. -/
theorem Perf.c6_amended_wrappers_and_summary
    (a : Analytics.PostHogAnalytics) (event : String)
    (props : List (String × String)) (nowIso : String)
    (st : Perf.PerformanceTracker) :
    (Analytics.track a event props nowIso = [] ∨
      ∃ ps, Analytics.track a event props nowIso =
        [Analytics.PostHogCall.capture a.userId event ps]) ∧
    (Perf.getPerformanceSummary st).2 = [] ∧
    (Perf.getPerformanceSummary
        { timers := [],
          metrics := [{ name := "op", value := 2, unit := .ms, timestamp := 0 },
                      { name := "op", value := 4, unit := .ms, timestamp := 1 }],
          memoryMonitorInterval := some 30000 }).1 =
      [("op", { count := 2, avg := 3, min := 2, max := 4, latest := 4 })] := by
  refine ⟨?_, rfl, Perf.summary_op_example⟩
  by_cases he : a.isEnabled
  · exact Or.inr ⟨props ++ [("sessionId", a.sessionId), ("timestamp", nowIso),
      ("$lib", "raycast-extension"), ("$lib_version", "1.0.0")],
      by simp [Analytics.track, he]⟩
  · exact Or.inl (by simp [Analytics.track, he])

/-- Helper for C7: `parseNodeEnv` accepts exactly the three schema enum
values. -/
theorem EnvConfig.parseNodeEnv_ok_lookup (x : Option String)
    (v : EnvConfig.NodeEnv) (h : EnvConfig.parseNodeEnv x = .ok v) :
    x = some "development" ∨ x = some "staging" ∨ x = some "production" := by
  unfold EnvConfig.parseNodeEnv at h
  split at h <;> simp_all


/-- Helper for C7: a successful `envSchema.parse` fixes the `NODE_ENV` and
`ENABLE_ANALYTICS` fields as the schema prescribes. -/
theorem EnvConfig.envSchemaParse_ok (env : EnvConfig.Env)
    (e : EnvConfig.Environment) (h : EnvConfig.envSchemaParse env = .ok e) :
    EnvConfig.parseNodeEnv (EnvConfig.envLookup env "NODE_ENV") =
      .ok e.nodeEnv ∧
    e.enableAnalytics =
      EnvConfig.parseEnableAnalytics
        (EnvConfig.envLookup env "ENABLE_ANALYTICS") := by
  unfold EnvConfig.envSchemaParse at h
  simp only [bind, Except.bind] at h
  split at h
  · simp at h
  · next nodeEnv heq =>
      split at h
      · simp at h
      · split at h
        · simp at h
        · split at h
          · simp at h
          · split at h
            · simp at h
            · split at h
              · simp at h
              · split at h
                · simp at h
                · simp only [Except.ok.injEq] at h
                  subst h
                  exact ⟨heq, rfl⟩

/-- C7 counterexample: the corpus does declare a schema that its own code
validates at runtime.  The env-validator snippet's `envSchema` is enforced
by `EnvironmentValidator.validateEnvironment`: an environment whose
`NODE_ENV` is "bogus" is rejected, a development environment parses to the
schema's defaults, and a production environment lacking the required API
keys is rejected — refuting "no code in the corpus declares a schema that
the code itself validates or enforces at runtime". -/
theorem EnvConfig.c7_counterexample :
    EnvConfig.validateEnvironment [("NODE_ENV", "bogus")] =
      .error "NODE_ENV: invalid enum value" ∧
    EnvConfig.validateEnvironment [("NODE_ENV", "development")] =
      .ok { nodeEnv := .development, openaiApiKey := none,
            anthropicApiKey := none, posthogApiKey := none,
            logLevel := .info, enableAnalytics := true,
            encryptionKey := none, jwtSecret := none } ∧
    EnvConfig.validateEnvironment [("NODE_ENV", "production")] =
      .error "Missing required environment variables in production" :=
  ⟨rfl, rfl, rfl⟩

/-- C7 amended: the repository's executable configuration declares no
schema, but the documentation's env-validator snippet does declare one
(`envSchema`) and enforces it at runtime: whenever
`validateEnvironment` succeeds, `NODE_ENV` was one of
development/staging/production, the parsed `ENABLE_ANALYTICS` flag follows
the schema's transform-with-default, and in production the required
`OPENAI_API_KEY`, `POSTHOG_API_KEY` and `ENCRYPTION_KEY` variables are
present and non-empty. -/
theorem EnvConfig.c7_amended_schema_enforced (env : EnvConfig.Env)
    (e : EnvConfig.Environment)
    (h : EnvConfig.validateEnvironment env = .ok e) :
    (EnvConfig.envLookup env "NODE_ENV" = some "development" ∨
     EnvConfig.envLookup env "NODE_ENV" = some "staging" ∨
     EnvConfig.envLookup env "NODE_ENV" = some "production") ∧
    (e.nodeEnv = .production →
      EnvConfig.envMissing env "OPENAI_API_KEY" = false ∧
      EnvConfig.envMissing env "POSTHOG_API_KEY" = false ∧
      EnvConfig.envMissing env "ENCRYPTION_KEY" = false) ∧
    e.enableAnalytics =
      EnvConfig.parseEnableAnalytics
        (EnvConfig.envLookup env "ENABLE_ANALYTICS") := by
  unfold EnvConfig.validateEnvironment at h
  simp only [bind, Except.bind] at h
  split at h
  · simp at h
  · next e0 heq =>
      have hko := EnvConfig.envSchemaParse_ok env e0 heq
      split at h
      · next hprod =>
          split at h
          · simp at h
          · next hfil =>
              simp only [Except.ok.injEq] at h
              subst h
              refine ⟨EnvConfig.parseNodeEnv_ok_lookup _ _ hko.1, ?_, hko.2⟩
              intro _
              have hnil : EnvConfig.requiredInProduction.filter
                  (fun k => EnvConfig.envMissing env k) = [] := by
                cases hfe : EnvConfig.requiredInProduction.filter
                    (fun k => EnvConfig.envMissing env k) with
                | nil => rfl
                | cons a l => rw [hfe] at hfil; simp at hfil
              have hall := List.filter_eq_nil_iff.mp hnil
              refine ⟨?_, ?_, ?_⟩ <;>
                [exact (Bool.not_eq_true _).mp
                  (hall "OPENAI_API_KEY" (by simp [EnvConfig.requiredInProduction]));
                 exact (Bool.not_eq_true _).mp
                  (hall "POSTHOG_API_KEY" (by simp [EnvConfig.requiredInProduction]));
                 exact (Bool.not_eq_true _).mp
                  (hall "ENCRYPTION_KEY" (by simp [EnvConfig.requiredInProduction]))]
      · next hnprod =>
          simp only [Except.ok.injEq] at h
          subst h
          exact ⟨EnvConfig.parseNodeEnv_ok_lookup _ _ hko.1,
            fun hp => absurd hp hnprod, hko.2⟩

/-- Witness for the amended C7, on a concrete development environment. -/
theorem EnvConfig.c7_amended_witness :
    (EnvConfig.envLookup [("NODE_ENV", "development")] "NODE_ENV" =
        some "development" ∨
     EnvConfig.envLookup [("NODE_ENV", "development")] "NODE_ENV" =
        some "staging" ∨
     EnvConfig.envLookup [("NODE_ENV", "development")] "NODE_ENV" =
        some "production") ∧
    (({ nodeEnv := .development, openaiApiKey := none,
        anthropicApiKey := none, posthogApiKey := none, logLevel := .info,
        enableAnalytics := true, encryptionKey := none,
        jwtSecret := none } : EnvConfig.Environment).nodeEnv = .production →
      EnvConfig.envMissing [("NODE_ENV", "development")] "OPENAI_API_KEY" =
        false ∧
      EnvConfig.envMissing [("NODE_ENV", "development")] "POSTHOG_API_KEY" =
        false ∧
      EnvConfig.envMissing [("NODE_ENV", "development")] "ENCRYPTION_KEY" =
        false) ∧
    ({ nodeEnv := .development, openaiApiKey := none,
       anthropicApiKey := none, posthogApiKey := none, logLevel := .info,
       enableAnalytics := true, encryptionKey := none,
       jwtSecret := none } : EnvConfig.Environment).enableAnalytics =
      EnvConfig.parseEnableAnalytics
        (EnvConfig.envLookup [("NODE_ENV", "development")]
          "ENABLE_ANALYTICS") :=
  EnvConfig.c7_amended_schema_enforced [("NODE_ENV", "development")]
    { nodeEnv := .development, openaiApiKey := none, anthropicApiKey := none,
      posthogApiKey := none, logLevel := .info, enableAnalytics := true,
      encryptionKey := none, jwtSecret := none } rfl

/-- Unfolding of `lastLookup` on a cons cell. -/
theorem Alerts.lastLookup_cons (p : String × Int) (ps : Alerts.LastAlerts)
    (n : String) :
    Alerts.lastLookup (p :: ps) n =
      if p.1 == n then some p.2 else Alerts.lastLookup ps n := by
  unfold Alerts.lastLookup
  cases hp : (p.1 == n) with
  | true => simp [List.find?, hp]
  | false => simp [List.find?, hp]

/-- JavaScript `Map.set` followed by `Map.get` at the same key yields the new value. -/
theorem Alerts.lastLookup_lastSet_self (last : Alerts.LastAlerts)
    (n : String) (t : Int) :
    Alerts.lastLookup (Alerts.lastSet last n t) n = some t := by
  induction last with
  | nil => simp [Alerts.lastSet, Alerts.lastLookup_cons, Alerts.lastLookup]
  | cons p ps ih =>
      unfold Alerts.lastSet
      by_cases hp : (p.1 == n) = true
      · simp [hp, Alerts.lastLookup_cons]
      · simp only [hp, Bool.false_eq_true, if_false, Alerts.lastLookup_cons]
        simp only [Bool.not_eq_true] at hp
        simp [hp, ih]

/-- JavaScript `Map.set` at one key leaves the lookup of a different key unchanged. -/
theorem Alerts.lastLookup_lastSet_other (last : Alerts.LastAlerts)
    (n' n : String) (t : Int) (hne : (n' == n) = false) :
    Alerts.lastLookup (Alerts.lastSet last n' t) n =
      Alerts.lastLookup last n := by
  induction last with
  | nil => simp [Alerts.lastSet, Alerts.lastLookup_cons, Alerts.lastLookup, hne]
  | cons p ps ih =>
      unfold Alerts.lastSet
      by_cases hp : (p.1 == n') = true
      · have hp1 : p.1 = n' := eq_of_beq hp
        simp [Alerts.lastLookup_cons, hp1, hne]
      · simp only [hp, Bool.false_eq_true, if_false, Alerts.lastLookup_cons, ih]

/-- Helper: `alertTimesFor` distributes over an appended log. -/
theorem Alerts.alertTimesFor_append (n : String)
    (a b : List (String × Int)) :
    Alerts.alertTimesFor n (a ++ b) =
      Alerts.alertTimesFor n a ++ Alerts.alertTimesFor n b := by
  simp [Alerts.alertTimesFor]

/-- Helper: `alertTimesFor` on a cons keeps the head's time exactly when the head
names the rule. -/
theorem Alerts.alertTimesFor_cons (n : String) (e : String × Int)
    (log : List (String × Int)) :
    Alerts.alertTimesFor n (e :: log) =
      if e.1 == n then e.2 :: Alerts.alertTimesFor n log
      else Alerts.alertTimesFor n log := by
  cases he : (e.1 == n) with
  | true => simp [Alerts.alertTimesFor, List.filter_cons, he]
  | false => simp [Alerts.alertTimesFor, List.filter_cons, he]

/-- In a `checkAlerts` pass none of whose rules carries the observed name,
no alert for that name is triggered and the `lastAlerts` entry for that
name is unchanged. -/
theorem Alerts.checkAlertsGo_no_rule (now : Int) (metrics : Alerts.Metrics)
    (n : String) (rs : List Alerts.AlertRule) :
    ∀ last : Alerts.LastAlerts, (∀ r' ∈ rs, r'.name ≠ n) →
      Alerts.alertTimesFor n
        (Alerts.checkAlertsGo now metrics rs last).2 = [] ∧
      Alerts.lastLookup (Alerts.checkAlertsGo now metrics rs last).1 n =
        Alerts.lastLookup last n := by
  induction rs with
  | nil => intro last _; exact ⟨rfl, rfl⟩
  | cons r rs ih =>
      intro last hno
      have hr : (r.name == n) = false :=
        beq_eq_false_iff_ne.mpr (hno r (List.mem_cons_self r rs))
      have hrs : ∀ r' ∈ rs, r'.name ≠ n :=
        fun r' h' => hno r' (List.mem_cons_of_mem r h')
      unfold Alerts.checkAlertsGo
      by_cases hskip : Alerts.shouldSkipAlert last r.name r.cooldown now
      · simp only [hskip, if_true]
        exact ih last hrs
      · simp only [Bool.not_eq_true] at hskip
        simp only [hskip, Bool.false_eq_true, if_false]
        by_cases hcond : r.condition metrics
        · simp only [hcond, if_true]
          obtain ⟨h1, h2⟩ := ih (Alerts.lastSet last r.name now) hrs
          refine ⟨?_, ?_⟩
          · rw [Alerts.alertTimesFor_cons]
            simp [hr, h1]
          · rw [h2, Alerts.lastLookup_lastSet_other last r.name n now hr]
        · simp only [Bool.not_eq_true] at hcond
          simp only [hcond, Bool.false_eq_true, if_false]
          exact ih last hrs

/-- One `checkAlerts` pass, observed at a single rule name `n` (with rule
names unique and every rule named `n` having cooldown `C` milliseconds):
either no alert named `n` is triggered and the `lastAlerts` entry for `n`
is untouched, or exactly one alert named `n` is triggered at the call time,
the entry becomes that time, and the previous entry was either absent or at
least `C` milliseconds older. -/
theorem Alerts.checkAlertsGo_spec (now : Int) (metrics : Alerts.Metrics)
    (n : String) (C : Int) (rs : List Alerts.AlertRule) :
    ∀ last : Alerts.LastAlerts,
      (rs.map Alerts.AlertRule.name).Nodup →
      (∀ r' ∈ rs, r'.name = n → ((r'.cooldown : Int) * 60 * 1000 = C)) →
      (Alerts.alertTimesFor n
          (Alerts.checkAlertsGo now metrics rs last).2 = [] ∧
        Alerts.lastLookup (Alerts.checkAlertsGo now metrics rs last).1 n =
          Alerts.lastLookup last n) ∨
      (Alerts.alertTimesFor n
          (Alerts.checkAlertsGo now metrics rs last).2 = [now] ∧
        Alerts.lastLookup (Alerts.checkAlertsGo now metrics rs last).1 n =
          some now ∧
        (Alerts.lastLookup last n = none ∨
          ∃ t0, Alerts.lastLookup last n = some t0 ∧ C ≤ now - t0)) := by
  induction rs with
  | nil => intro last _ _; exact Or.inl ⟨rfl, rfl⟩
  | cons r rs ih =>
      intro last hnd hc
      have hnd2 : (rs.map Alerts.AlertRule.name).Nodup := by
        simpa using hnd.of_cons
      have hnotmem : r.name ∉ rs.map Alerts.AlertRule.name := by
        have := hnd
        simp only [List.map_cons, List.nodup_cons] at this
        exact this.1
      have hc2 : ∀ r' ∈ rs, r'.name = n →
          ((r'.cooldown : Int) * 60 * 1000 = C) :=
        fun r' h' => hc r' (List.mem_cons_of_mem r h')
      unfold Alerts.checkAlertsGo
      by_cases hskip : Alerts.shouldSkipAlert last r.name r.cooldown now
      · simp only [hskip, if_true]
        exact ih last hnd2 hc2
      · have hskipf : Alerts.shouldSkipAlert last r.name r.cooldown now
            = false := by simpa using hskip
        simp only [hskipf, Bool.false_eq_true, if_false]
        by_cases hcond : r.condition metrics
        · simp only [hcond, if_true]
          by_cases hn : r.name = n
          · have hbeq : (r.name == n) = true := beq_iff_eq.mpr hn
            have hnors : ∀ r' ∈ rs, r'.name ≠ n := by
              intro r' h' hne
              exact hnotmem (by
                rw [← hn] at hne
                exact hne ▸ List.mem_map_of_mem Alerts.AlertRule.name h')
            obtain ⟨h1, h2⟩ := Alerts.checkAlertsGo_no_rule now metrics n rs
              (Alerts.lastSet last r.name now) hnors
            refine Or.inr ⟨?_, ?_, ?_⟩
            · rw [Alerts.alertTimesFor_cons]
              simp [hbeq, h1]
            · rw [h2, hn, Alerts.lastLookup_lastSet_self]
            · unfold Alerts.shouldSkipAlert at hskipf
              rw [hn] at hskipf
              cases hl : Alerts.lastLookup last n with
              | none => exact Or.inl rfl
              | some t0 =>
                  rw [hl] at hskipf
                  have hge : ¬(now - t0 < (r.cooldown : Int) * 60 * 1000) :=
                    of_decide_eq_false hskipf
                  have hcr : (r.cooldown : Int) * 60 * 1000 = C :=
                    hc r (List.mem_cons_self r rs) hn
                  exact Or.inr ⟨t0, rfl, by omega⟩
          · have hbeq : (r.name == n) = false := beq_eq_false_iff_ne.mpr hn
            have hlook := Alerts.lastLookup_lastSet_other last r.name n now hbeq
            rcases ih (Alerts.lastSet last r.name now) hnd2 hc2 with
              ⟨h1, h2⟩ | ⟨h1, h2, h3⟩
            · refine Or.inl ⟨?_, ?_⟩
              · rw [Alerts.alertTimesFor_cons]
                simp [hbeq, h1]
              · rw [h2, hlook]
            · refine Or.inr ⟨?_, h2, ?_⟩
              · rw [Alerts.alertTimesFor_cons]
                simp [hbeq, h1]
              · rw [hlook] at h3
                exact h3
        · have hcondf : r.condition metrics = false := by simpa using hcond
          simp only [hcondf, Bool.false_eq_true, if_false]
          exact ih last hnd2 hc2

/-- Helper: `lastTimeOr` peels a head when the tail still decides the last
element. -/
theorem Alerts.lastTimeOr_cons (t : Int) (ts : List Int) (o : Option Int) :
    Alerts.lastTimeOr (t :: ts) o = Alerts.lastTimeOr ts (some t) := by
  cases ts with
  | nil => rfl
  | cons x xs =>
      simp only [Alerts.lastTimeOr, List.getLast?_cons_cons]
      cases hx : (x :: xs).getLast? with
      | none => simp at hx
      | some y => rfl

/-- A full run of `checkAlerts` calls, observed at one rule name: the
trigger times respect the cooldown gap (seeded by the initial `lastAlerts`
entry), and the final `lastAlerts` entry is the last trigger time (or the
initial entry when the run never triggered the rule). -/
theorem Alerts.runAlerts_spec (rules : List Alerts.AlertRule) (n : String)
    (C : Int) (hnd : (rules.map Alerts.AlertRule.name).Nodup)
    (hc : ∀ r' ∈ rules, r'.name = n →
      ((r'.cooldown : Int) * 60 * 1000 = C)) :
    ∀ (trace : List (Int × Alerts.Metrics)) (last : Alerts.LastAlerts),
      Alerts.seedChain C (Alerts.lastLookup last n)
        (Alerts.alertTimesFor n (Alerts.runAlerts rules trace last).2) ∧
      Alerts.lastLookup (Alerts.runAlerts rules trace last).1 n =
        Alerts.lastTimeOr
          (Alerts.alertTimesFor n (Alerts.runAlerts rules trace last).2)
          (Alerts.lastLookup last n) := by
  intro trace
  induction trace with
  | nil =>
      intro last
      refine ⟨?_, rfl⟩
      cases hl : Alerts.lastLookup last n <;>
        simp [Alerts.seedChain, Alerts.runAlerts, Alerts.alertTimesFor]
  | cons tm rest ih =>
      intro last
      obtain ⟨t, m⟩ := tm
      have hrun : Alerts.runAlerts rules ((t, m) :: rest) last =
          ((Alerts.runAlerts rules rest
              (Alerts.checkAlertsGo t m rules last).1).1,
            (Alerts.checkAlertsGo t m rules last).2 ++
              (Alerts.runAlerts rules rest
                (Alerts.checkAlertsGo t m rules last).1).2) := rfl
      rw [hrun]
      dsimp only
      rw [Alerts.alertTimesFor_append]
      rcases Alerts.checkAlertsGo_spec t m n C rules last hnd hc with
        ⟨h1, h2⟩ | ⟨h1, h2, h3⟩
      · obtain ⟨ih1, ih2⟩ := ih (Alerts.checkAlertsGo t m rules last).1
        rw [h2] at ih1 ih2
        rw [h1, List.nil_append]
        exact ⟨ih1, ih2⟩
      · obtain ⟨ih1, ih2⟩ := ih (Alerts.checkAlertsGo t m rules last).1
        rw [h2] at ih1 ih2
        rw [h1]
        have hcons : [t] ++ Alerts.alertTimesFor n
            (Alerts.runAlerts rules rest
              (Alerts.checkAlertsGo t m rules last).1).2 =
          t :: Alerts.alertTimesFor n
            (Alerts.runAlerts rules rest
              (Alerts.checkAlertsGo t m rules last).1).2 := rfl
        rw [hcons]
        constructor
        · rcases h3 with hl | ⟨t0, hl, hge⟩
          · rw [hl]
            simpa [Alerts.seedChain] using ih1
          · rw [hl]
            simp only [Alerts.seedChain] at ih1 ⊢
            exact List.chain'_cons.mpr ⟨hge, ih1⟩
        · rw [ih2, Alerts.lastTimeOr_cons]

/-- C10: for every alert rule (in a manager whose rule names are distinct,
as the default rules' are) and every sequence of `checkAlerts` calls
starting from the fresh manager, consecutive alerts for that rule are
always at least the rule's cooldown (minutes, converted to milliseconds)
apart: once an alert has been triggered, `checkAlerts` never triggers
another alert for the same rule until the cooldown has elapsed since the
previous trigger of that rule. -/
theorem Alerts.c10_cooldown_respected (rules : List Alerts.AlertRule)
    (r : Alerts.AlertRule) (hr : r ∈ rules)
    (hnd : (rules.map Alerts.AlertRule.name).Nodup)
    (trace : List (Int × Alerts.Metrics)) :
    List.Chain' (fun t1 t2 => (r.cooldown : Int) * 60 * 1000 ≤ t2 - t1)
      (Alerts.alertTimesFor r.name (Alerts.runAlerts rules trace []).2) := by
  have hc : ∀ r' ∈ rules, r'.name = r.name →
      ((r'.cooldown : Int) * 60 * 1000 = (r.cooldown : Int) * 60 * 1000) := by
    intro r' h' hname
    have : r' = r := List.inj_on_of_nodup_map hnd h' hr hname
    rw [this]
  have h := (Alerts.runAlerts_spec rules r.name
    ((r.cooldown : Int) * 60 * 1000) hnd hc trace []).1
  have hempty : Alerts.lastLookup [] r.name = none := rfl
  rw [hempty] at h
  simpa [Alerts.seedChain] using h

/-- Witness for C10: the default high-error-rate rule, over a run of two
`checkAlerts` calls whose metrics exceed the error-rate threshold. -/
theorem Alerts.c10_cooldown_witness :
    List.Chain' (fun t1 t2 =>
        (Alerts.highErrorRateRule.cooldown : Int) * 60 * 1000 ≤ t2 - t1)
      (Alerts.alertTimesFor Alerts.highErrorRateRule.name
        (Alerts.runAlerts Alerts.defaultRules
          [(0, [("errorRate", 1)]), (60000, [("errorRate", 1)])] []).2) :=
  Alerts.c10_cooldown_respected Alerts.defaultRules Alerts.highErrorRateRule
    (by unfold Alerts.defaultRules; exact List.mem_cons_self _ _)
    (by decide)
    [(0, [("errorRate", 1)]), (60000, [("errorRate", 1)])]
